import Mathlib

set_option maxRecDepth 4000
set_option autoImplicit false

namespace Despliegue

/-! Shallow embedding of the address-resolution and batch-geocoding engine of
    this repository (source file: the service module holding normalizeStr,
    normalizeCityKey, normalizeAddressForGeocoding, stripExtraneousAddressParts,
    calculateBBox, pointInPolygon, isPointInFeature, calculateCentroid,
    fetchAddressLocation, resolveSingleAddress and processTemplateBatch).

    Modelling conventions:
    - JavaScript strings are Lean `String`; JavaScript numbers are `ℚ`.
    - Each regular-expression replacement of the source is embedded as an
      explicit scanner mirroring that pattern: leftmost match, alternation
      tried in source order, greedy quantifiers with backtracking, JS word
      boundaries (\w = ASCII letters, digits, underscore).
    - Effectful dependencies (geocoding providers, the IndexedDB-backed
      cache and municipal index, reverse geocoding) are oracle parameters
      plus explicit state passing; provider responses are indexed by call
      count so that every response sequence is covered.
    - Recursion of fetchAddressLocation is given an explicit fuel; a
      dedicated flag records fuel exhaustion, and a theorem shows the flag
      is never set when the fuel dominates the (simplification, retry)
      measure, which is the termination argument of the source. -/

/- Character classes.  JS \w is [A-Za-z0-9_]; \s here covers the ASCII
   whitespace occurring in the data (the full JS \s class also has \f, \v
   and Unicode spaces, which never occur in the modelled inputs). -/
def isWordChar (c : Char) : Bool := c.isAlpha || c.isDigit || c = '_'

def isWsChar (c : Char) : Bool := c = ' ' || c = '\t' || c = '\n' || c = '\r'

def isDigitChar (c : Char) : Bool := c.isDigit

def isAsciiLetter (c : Char) : Bool := c.isAlpha

def ciEqChar (a b : Char) : Bool := a.toLower = b.toLower

/- String.trim of JS, restricted to the ASCII whitespace above. -/
def trimStr (s : String) : String :=
  String.mk ((s.data.dropWhile isWsChar).reverse.dropWhile isWsChar).reverse

def toLowerStr (s : String) : String := String.mk (s.data.map Char.toLower)

def toUpperStr (s : String) : String := String.mk (s.data.map Char.toUpper)

/- Literal (case-sensitive) substring containment, as JS String.includes. -/
def subAt (pat : List Char) (s : List Char) : Bool :=
  pat.isPrefixOf s

def containsSubAux (pat : List Char) : List Char → Bool
  | [] => pat.isEmpty
  | c :: rest => subAt pat (c :: rest) || containsSubAux pat rest

def containsSub (s pat : String) : Bool := containsSubAux pat.data s.data

/- JS String.indexOf: index of the first occurrence of a literal pattern. -/
def indexOfSubAux (pat : List Char) : List Char → Nat → Option Nat
  | [], i => if pat.isEmpty then some i else none
  | c :: rest, i => if subAt pat (c :: rest) then some i else indexOfSubAux pat rest (i + 1)

def indexOfSub (s pat : String) : Option Nat := indexOfSubAux pat.data s.data 0

/- Case-insensitive containment, used for regex tests such as /vereda/i. -/
def ciSubAt (pat : List Char) (s : List Char) : Bool :=
  match pat, s with
  | [], _ => true
  | _ :: _, [] => false
  | p :: ps, c :: cs => ciEqChar p c && ciSubAt ps cs

def containsCIAux (pat : List Char) : List Char → Bool
  | [] => pat.isEmpty
  | c :: rest => ciSubAt pat (c :: rest) || containsCIAux pat rest

def containsCI (s pat : String) : Bool := containsCIAux pat.data s.data

/-! Generic leftmost global-replace engine over an indexed character array.
    A matcher receives the array and a start index and returns the end index
    of the match (exclusive) together with the replacement text; matchers
    always consume at least one character, mirroring the source patterns. -/

def charAt (cs : Array Char) (i : Nat) : Option Char := cs.get? i

def wordAt (cs : Array Char) (i : Nat) : Bool :=
  match charAt cs i with
  | some c => isWordChar c
  | none => false

/- JS \b: transition between word and non-word, string ends counting as
   non-word.  `boundaryAt cs i` is the boundary before index i. -/
def boundaryAt (cs : Array Char) (i : Nat) : Bool :=
  (if i = 0 then false else wordAt cs (i - 1)) != wordAt cs i

def runLenAux (p : Char → Bool) (cs : Array Char) : Nat → Nat → Nat
  | 0, _ => 0
  | fuel + 1, i =>
      match charAt cs i with
      | some c => if p c then runLenAux p cs fuel (i + 1) + 1 else 0
      | none => 0

/- Length of the maximal run of characters satisfying p starting at i. -/
def runLen (p : Char → Bool) (cs : Array Char) (i : Nat) : Nat :=
  runLenAux p cs (cs.size + 1) i

def extractStr (cs : Array Char) (a b : Nat) : String :=
  String.mk ((cs.toList.take b).drop a)

/- A matcher yields (end index, replacement). -/
def Matcher : Type := Array Char → Nat → Option (Nat × String)

def replGo (m : Matcher) (cs : Array Char) : Nat → Nat → List Char
  | 0, _ => []
  | fuel + 1, i =>
      if i < cs.size then
        match m cs i with
        | some (stop, repl) =>
            if i < stop then repl.data ++ replGo m cs fuel stop
            else cs.getD i ' ' :: replGo m cs fuel (i + 1)
        | none => cs.getD i ' ' :: replGo m cs fuel (i + 1)
      else []

/- JS String.replace with the g flag: scan left to right, replace each
   match, continue after its end. -/
def globalReplace (m : Matcher) (s : String) : String :=
  let cs := s.data.toArray
  String.mk (replGo m cs cs.size 0)

/- Case-insensitive pattern-prefix test at an index.  A '.' in the pattern
   is the regex metacharacter: it matches any character except a newline
   (the source joins plain words into alternations, and the one alternative
   containing a dot, "c.c", keeps its regex-dot meaning). -/
def patMatchAt (cs : Array Char) : Nat → List Char → Bool
  | _, [] => true
  | i, p :: ps =>
      match charAt cs i with
      | some c => (if p = '.' then c ≠ '\n' else ciEqChar p c) && patMatchAt cs (i + 1) ps
      | none => false

/- First alternative (in source order) matching at i and followed by \b. -/
def altsEndAt (cs : Array Char) (i : Nat) : List String → Option Nat
  | [] => none
  | a :: rest =>
      let l := a.data.length
      if patMatchAt cs i a.data && boundaryAt cs (i + l) then some (i + l)
      else altsEndAt cs i rest

/- Embeds a replacement of the shape \b(w1|w2|...)\b (flags g, i). -/
def wordAltsMatcher (alts : List String) (repl : String) : Matcher := fun cs i =>
  if boundaryAt cs i then (altsEndAt cs i alts).map (fun e => (e, repl)) else none

/- Embeds \bw1\s+w2\b (flags g, i), e.g. "ciudad de". -/
def phraseMatcher (w1 w2 : String) : Matcher := fun cs i =>
  if boundaryAt cs i && patMatchAt cs i w1.data then
    let p := i + w1.data.length
    let r := runLen isWsChar cs p
    if r = 0 then none
    else
      let q := p + r
      if patMatchAt cs q w2.data && boundaryAt cs (q + w2.data.length) then
        some (q + w2.data.length, "")
      else none
  else none

/- Embeds \bd\.?c\.?\b (flags g, i): greedy optional dots, with the
   backtracking on the trailing dot that the final \b can force. -/
def dcMatcher : Matcher := fun cs i =>
  if boundaryAt cs i && patMatchAt cs i ['d'] then
    let p := if charAt cs (i + 1) = some '.' then i + 2 else i + 1
    if patMatchAt cs p ['c'] then
      let q := p + 1
      if charAt cs q = some '.' then
        if boundaryAt cs (q + 1) then some (q + 1, "")
        else if boundaryAt cs q then some (q, "")
        else none
      else if boundaryAt cs q then some (q, "") else none
    else none
  else none

/- Embeds /\s+/g replaced by a single space. -/
def wsRunMatcher : Matcher := fun cs i =>
  let r := runLen isWsChar cs i
  if r = 0 then none else some (i + r, " ")

/- Embeds /\s\s+/g replaced by a single space. -/
def wsCollapseMatcher : Matcher := fun cs i =>
  let r := runLen isWsChar cs i
  if 2 ≤ r then some (i + r, " ") else none

/- Embeds /\(.*?\)/g removal: '(' up to the nearest following ')', with the
   regex dot not crossing a newline. -/
def parenEndAt (cs : Array Char) : Nat → Nat → Option Nat
  | 0, _ => none
  | fuel + 1, j =>
      match charAt cs j with
      | some ')' => some (j + 1)
      | some '\n' => none
      | some _ => parenEndAt cs fuel (j + 1)
      | none => none

def parensMatcher : Matcher := fun cs i =>
  if charAt cs i = some '(' then (parenEndAt cs (cs.size + 1) (i + 1)).map (fun e => (e, "")) else none

/- Embeds /\b[\w\.-]+@[\w\.-]+\.\w{2,4}\b/gi removal (email-like text).
   The leading character class is matched maximally (any shorter match
   leaves a class character where '@' is required), then backtracking
   searches the dot position right to left and the {2,4} counter from 4
   down, exactly as the JS engine does. -/
def isEmailChar (c : Char) : Bool := isWordChar c || c = '.' || c = '-'

def emailTldTry (cs : Array Char) (m : Nat) : Option Nat :=
  let tryLen : Nat → Option Nat := fun t =>
    if (List.range t).all (fun o => wordAt cs (m + 1 + o)) && boundaryAt cs (m + 1 + t) then
      some (m + 1 + t)
    else none
  match tryLen 4 with
  | some e => some e
  | none =>
      match tryLen 3 with
      | some e => some e
      | none => tryLen 2

def emailScanDots (cs : Array Char) (bStart : Nat) : Nat → Nat → Option Nat
  | 0, _ => none
  | fuel + 1, m =>
      if m ≤ bStart then none
      else
        match (if charAt cs m = some '.' then emailTldTry cs m else none) with
        | some e => some e
        | none => emailScanDots cs bStart fuel (m - 1)

def emailMatcher : Matcher := fun cs i =>
  if boundaryAt cs i then
    let aN := runLen isEmailChar cs i
    if aN = 0 then none
    else if charAt cs (i + aN) = some '@' then
      let bStart := i + aN + 1
      let bN := runLen isEmailChar cs bStart
      if bN = 0 then none
      else (emailScanDots cs bStart (bStart + bN) (bStart + bN - 1)).map (fun e => (e, ""))
    else none
  else none

/-! Address and name normalization (source: normalizeStr, normalizeCityKey,
    normalizeAddressForGeocoding, stripExtraneousAddressParts). -/

/- NFD plus removal of combining marks, for the Latin diacritics occurring
   in the data (the source applies normalize("NFD") and strips U+0300-036F;
   on the alphabet of this data set that is exactly de-accenting). -/
def deaccentChar (c : Char) : Char :=
  match c with
  | 'á' => 'a' | 'é' => 'e' | 'í' => 'i' | 'ó' => 'o' | 'ú' => 'u'
  | 'ü' => 'u' | 'ñ' => 'n'
  | 'Á' => 'A' | 'É' => 'E' | 'Í' => 'I' | 'Ó' => 'O' | 'Ú' => 'U'
  | 'Ü' => 'U' | 'Ñ' => 'N'
  | _ => c

/- Source: str.normalize("NFD").replace(diacritics,"").toLowerCase().trim(). -/
def normalizeStr (str : String) : String :=
  trimStr (toLowerStr (String.mk (str.data.map deaccentChar)))

/- Source: normalizeCityKey. -/
def normalizeCityKey (raw : String) : String :=
  if raw = "" then ""
  else
    let s := trimStr (globalReplace parensMatcher raw)
    let s := normalizeStr s
    let s := String.mk (s.data.map (fun c => if c = '.' || c = ',' then ' ' else c))
    let s := globalReplace (phraseMatcher "ciudad" "de") s
    let s := globalReplace (phraseMatcher "municipio" "de") s
    let s := globalReplace dcMatcher s
    let s := globalReplace (phraseMatcher "distrito" "capital") s
    let s := globalReplace (wordAltsMatcher ["colombia"] "") s
    let s := trimStr (globalReplace wsRunMatcher s)
    if containsSub (toUpperStr s) "BOGOTA" then "BOGOTA" else normalizeStr s

/- Stop-word list of normalizeAddressForGeocoding, in source order. -/
def stopWordsList : List String :=
  ["ap", "apt", "apto", "apartamento", "int", "interior", "casa", "cs", "local",
   "oficina", "of", "piso", "torre", "manzana", "mz", "bloque", "bl",
   "barrio", "br", "urb", "urbanizacion", "conjunto", "etapa", "hotel",
   "edificio", "agrupacion", "zona", "vereda", "km", "kilometro", "via",
   "centro comercial", "c.c", "cc", "mall", "plaza", "ph"]

/- Embeds /\b(?:No|Num|Numero|Nro)\.?\s+/gi replaced by " # ". -/
def noNumMatcher : Matcher := fun cs i =>
  if boundaryAt cs i then
    let tryAlt : String → Option Nat := fun a =>
      if patMatchAt cs i a.data then
        let p := i + a.data.length
        let pd := if charAt cs p = some '.' then p + 1 else p
        let r := runLen isWsChar cs pd
        if 1 ≤ r then some (pd + r)
        else if pd ≠ p then
          let r2 := runLen isWsChar cs p
          if 1 ≤ r2 then some (p + r2) else none
        else none
      else none
    let rec go : List String → Option Nat
      | [] => none
      | a :: rest =>
          match tryAlt a with
          | some e => some e
          | none => go rest
    (go ["No", "Num", "Numero", "Nro"]).map (fun e => (e, " # "))
  else none

/- Embeds /#/g replaced by " # ". -/
def hashMatcher : Matcher := fun cs i =>
  if charAt cs i = some '#' then some (i + 1, " # ") else none

/- Embeds /\s*-\s*/g replaced by "-". -/
def hyphenMatcher : Matcher := fun cs i =>
  let r1 := runLen isWsChar cs i
  if charAt cs (i + r1) = some '-' then
    let r2 := runLen isWsChar cs (i + r1 + 1)
    some (i + r1 + 1 + r2, "-")
  else none

/- Embeds / #\s*([0-9]+[a-z]?)\s+([0-9]+[a-z]?)/gi replaced by " # $1-$2".
   The \s* cannot backtrack usefully (a shorter run leaves a whitespace
   character where a digit is required), the optional letter of group one
   is tried greedily then skipped, and the trailing optional letter of
   group two is simply greedy since nothing follows it. -/
def hashPairMatcher : Matcher := fun cs i =>
  if charAt cs i = some ' ' && charAt cs (i + 1) = some '#' then
    let p := i + 2 + runLen isWsChar cs (i + 2)
    let d1 := runLen isDigitChar cs p
    if d1 = 0 then none
    else
      let attempt : Nat → Option (Nat × String) := fun q =>
        let w := runLen isWsChar cs q
        if w = 0 then none
        else
          let p2 := q + w
          let d2 := runLen isDigitChar cs p2
          if d2 = 0 then none
          else
            let e := p2 + d2 +
              (if (charAt cs (p2 + d2)).any isAsciiLetter then 1 else 0)
            some (e, " # " ++ extractStr cs p q ++ "-" ++ extractStr cs p2 e)
      match (if (charAt cs (p + d1)).any isAsciiLetter then attempt (p + d1 + 1) else none) with
      | some r => some r
      | none => attempt (p + d1)
  else none

/- Street types of the hash-insertion heuristic, in source order. -/
def streetTypesList : List String :=
  ["Calle", "Carrera", "Diagonal", "Transversal", "Avenida", "Circular",
   "Autopista", "Avenida Calle", "Avenida Carrera"]

/- Depth-first backtracking over candidate continuation positions, in the
   order the JS engine tries them. -/
def firstPos {α : Type} (l : List Nat) (k : Nat → Option α) : Option α :=
  match l with
  | [] => none
  | x :: xs =>
      match k x with
      | some r => some r
      | none => firstPos xs k

def optLetter (cs : Array Char) (p : Nat) : List Nat :=
  if (charAt cs p).any isAsciiLetter then [p + 1, p] else [p]

def optWs (cs : Array Char) (p : Nat) : List Nat :=
  if (charAt cs p).any isWsChar then [p + 1, p] else [p]

def optWord (w : String) (cs : Array Char) (p : Nat) : List Nat :=
  if patMatchAt cs p w.data then [p + w.data.length, p] else [p]

def optAltWords (ws : List String) (cs : Array Char) (p : Nat) : List Nat :=
  (ws.filterMap (fun w => if patMatchAt cs p w.data then some (p + w.data.length) else none)) ++ [p]

/- Tail of the heuristic pattern after group two: \s+([0-9]+.*)$ with the
   regex dot unable to cross a newline.  Returns the start of group three. -/
def heurTail (cs : Array Char) (g2end : Nat) : Option (Nat × Nat) :=
  let w := runLen isWsChar cs g2end
  if w = 0 then none
  else
    let g3 := g2end + w
    if runLen isDigitChar cs g3 = 0 then none
    else if (cs.toList.drop g3).contains '\n' then none
    else some (g2end, g3)

/- Group two of the heuristic: [0-9]+[a-z]?\s?(?:bis)?\s?[a-z]?\s?(?:sur|norte|este|oeste)?
   followed by the tail, with full backtracking. -/
def heurGroup2 (cs : Array Char) (q0 : Nat) : Option (Nat × Nat) :=
  firstPos (optLetter cs q0) fun a =>
  firstPos (optWs cs a) fun b =>
  firstPos (optWord "bis" cs b) fun c =>
  firstPos (optWs cs c) fun d =>
  firstPos (optLetter cs d) fun e =>
  firstPos (optWs cs e) fun f =>
  firstPos (optAltWords ["sur", "norte", "este", "oeste"] cs f) fun g =>
  heurTail cs g

/- Embeds the anchored replacement
   /^(Type)\s+([0-9]+[a-z]?\s?(?:bis)?\s?[a-z]?\s?(?:sur|norte|este|oeste)?)\s+([0-9]+.*)$/i
   by "$1 $2 # $3" (captures keep the original text).  The \s+ after the
   street type and the leading [0-9]+ runs are necessarily maximal since
   the following element can match neither whitespace nor a digit. -/
def heuristicHash (s : String) : String :=
  let cs := s.data.toArray
  let tryAlt : String → Option String := fun alt =>
    if patMatchAt cs 0 alt.data then
      let p := alt.data.length
      let w1 := runLen isWsChar cs p
      if w1 = 0 then none
      else
        let p1 := p + w1
        let d := runLen isDigitChar cs p1
        if d = 0 then none
        else
          (heurGroup2 cs (p1 + d)).map (fun r =>
            extractStr cs 0 p ++ " " ++ extractStr cs p1 r.1 ++ " # " ++
              extractStr cs r.2 cs.size)
    else none
  let rec go : List String → Option String
    | [] => none
    | a :: rest =>
        match tryAlt a with
        | some r => some r
        | none => go rest
  match go streetTypesList with
  | some r => r
  | none => s

/- Source: normalizeAddressForGeocoding, pass for pass. -/
def normalizeAddressForGeocoding (rawAddress : String) : String :=
  if trimStr rawAddress = "" then ""
  else
    let clean := trimStr rawAddress
    let clean := globalReplace emailMatcher clean
    let clean := String.mk (clean.data.map (fun c => if c = '.' then ' ' else c))
    let clean := globalReplace parensMatcher clean
    let clean := globalReplace (wordAltsMatcher ["ac"] "Avenida Calle") clean
    let clean := globalReplace (wordAltsMatcher ["ak"] "Avenida Carrera") clean
    let clean := globalReplace (wordAltsMatcher ["cl", "cll", "c"] "Calle") clean
    let clean := globalReplace (wordAltsMatcher ["cra", "kr", "kra", "k"] "Carrera") clean
    let clean := globalReplace (wordAltsMatcher ["dg", "diag"] "Diagonal") clean
    let clean := globalReplace (wordAltsMatcher ["tv", "trans", "tr"] "Transversal") clean
    let clean := globalReplace (wordAltsMatcher ["av", "avda"] "Avenida") clean
    let clean := globalReplace (wordAltsMatcher ["cir", "circ"] "Circular") clean
    let clean := globalReplace (wordAltsMatcher ["autop", "autopista"] "Autopista") clean
    let clean := globalReplace (wordAltsMatcher stopWordsList "") clean
    let clean := globalReplace noNumMatcher clean
    let clean := globalReplace (wordAltsMatcher ["no"] " # ") clean
    let clean := globalReplace hashMatcher clean
    let clean := globalReplace hyphenMatcher clean
    let clean := if clean.data.contains '#' then clean else heuristicHash clean
    let clean := globalReplace hashPairMatcher clean
    let clean := globalReplace wsCollapseMatcher clean
    trimStr clean

/- Keyword list of stripExtraneousAddressParts, in source order. -/
def stripKeywordsList : List String :=
  ["piso", "apto", "apartamento", "interior", "barrio", "casa",
   "frente al parque", "frente", "esquina"]

def hyKwList : List String :=
  ["piso", "apto", "apartamento", "interior", "barrio", "casa", "frente", "esquina"]

def conflictCities : List String :=
  ["corinto", "cauca", "medellin", "barranquilla", "cartagena", "cali",
   "soacha", "envigado", "itagui", "yopal", "duitama"]

/- Match position of /\s-\s*(piso|apto|...)/i, if any. -/
def hyKwMatchAt (cs : Array Char) (i : Nat) : Bool :=
  ((charAt cs i).any isWsChar) && charAt cs (i + 1) = some '-' &&
    (let p := i + 2 + runLen isWsChar cs (i + 2)
     hyKwList.any (fun w => patMatchAt cs p w.data))

def hyKwIndexAux (cs : Array Char) : Nat → Nat → Option Nat
  | 0, _ => none
  | fuel + 1, i =>
      if i < cs.size then
        if hyKwMatchAt cs i then some i else hyKwIndexAux cs fuel (i + 1)
      else none

def hyKwIndex (s : String) : Option Nat :=
  let cs := s.data.toArray
  hyKwIndexAux cs (cs.size + 1) 0

def takeChars (s : String) (n : Nat) : String := String.mk (s.data.take n)

/- Source: stripExtraneousAddressParts.  Note the source computes `lower`
   from the original string before cutting at the first comma, and searches
   keywords in that full lowered string while cutting the comma-cut one. -/
def stripExtraneousAddressParts (address city : String) : String :=
  let s := address
  let lower := toLowerStr s
  let s := if s.data.contains ',' then String.mk (s.data.takeWhile (fun c => c ≠ ',')) else s
  let s :=
    match stripKeywordsList.findSome? (fun kw => indexOfSub lower kw) with
    | some idx => trimStr (takeChars s idx)
    | none => s
  let s :=
    match hyKwIndex s with
    | some idx => trimStr (takeChars s idx)
    | none => s
  let cityNorm := normalizeStr city
  let s := conflictCities.foldl (fun acc c =>
    if !containsSub cityNorm c && containsSub (toLowerStr acc) c then
      trimStr (globalReplace wsCollapseMatcher (globalReplace (wordAltsMatcher [c] "") acc))
    else acc) s
  trimStr s

/-! Geometry engine (source: calculateBBox, pointInPolygon, isPointInFeature,
    calculateCentroid, findZoneByPoint). -/

/- GeoJSON geometry restricted to the two types the source handles; ring
   coordinates are (lon, lat) pairs as in the data. -/
inductive Geometry where
  | polygon (rings : List (List (ℚ × ℚ)))
  | multiPolygon (polys : List (List (List (ℚ × ℚ))))
  deriving DecidableEq, Repr

structure PostalZone where
  id : String
  codigo_municipio : String
  nombre_municipio : String
  nombre_localidad : String
  codigo_departamento : String
  nombre_departamento : String
  codigo_postal : String
  geometry : Geometry
  bbox : ℚ × ℚ × ℚ × ℚ
  centerLat : Option ℚ
  centerLon : Option ℚ
  deriving DecidableEq, Repr

instance : Inhabited PostalZone :=
  ⟨⟨"", "", "", "", "", "", "", Geometry.polygon [], (0, 0, 0, 0), none, none⟩⟩

/- Outer rings that calculateBBox folds over: coordinates[0] of the single
   polygon, or polygon[0] of every member of a MultiPolygon. -/
def outerRingPoints : Geometry → List (ℚ × ℚ)
  | Geometry.polygon rings => rings.headD []
  | Geometry.multiPolygon polys => polys.flatMap (fun poly => poly.headD [])

/- Source: calculateBBox; the Infinity sentinel becomes the empty-list
   check, degenerate geometry yields the all-zero box. -/
def calculateBBox (geometry : Geometry) : ℚ × ℚ × ℚ × ℚ :=
  match outerRingPoints geometry with
  | [] => (0, 0, 0, 0)
  | p :: rest =>
      rest.foldl (fun acc q =>
        (min acc.1 q.1, min acc.2.1 q.2, max acc.2.2.1 q.1, max acc.2.2.2 q.2))
        (p.1, p.2, p.1, p.2)

/- Source: pointInPolygon, even-odd ray casting.  The division is guarded
   in the source by short-circuit evaluation (yi and yj straddle y, hence
   differ); here rational division by zero yields zero, and the conjunct is
   false in exactly the same cases. -/
def pipStep (x y : ℚ) (pi pj : ℚ × ℚ) (inside : Bool) : Bool :=
  let xi := pi.1
  let yi := pi.2
  let xj := pj.1
  let yj := pj.2
  let intersect := (decide (yi > y) != decide (yj > y)) &&
    decide (x < (xj - xi) * (y - yi) / (yj - yi) + xi)
  if intersect then !inside else inside

def pointInPolygon (point : ℚ × ℚ) (vs : List (ℚ × ℚ)) : Bool :=
  (List.range vs.length).foldl (fun inside i =>
    let j := if i = 0 then vs.length - 1 else i - 1
    pipStep point.1 point.2 (vs.getD i (0, 0)) (vs.getD j (0, 0)) inside) false

/- Bounding-box rejection test of isPointInFeature, spelled out so the
   prefilter property can be stated. -/
def bboxOutside (zone : PostalZone) (lon lat : ℚ) : Bool :=
  let b := zone.bbox
  decide (lon < b.1) || decide (lon > b.2.2.1) || decide (lat < b.2.1) || decide (lat > b.2.2.2)

/- Source: isPointInFeature.  The zone data always carries a bbox (the type
   declares it and the loader computes it), so the truthiness guard of the
   source is always taken; only the outer ring (coordinates[0]) of each
   polygon part is tested, holes are never subtracted. -/
def isPointInFeature (lon lat : ℚ) (zone : PostalZone) : Bool :=
  if bboxOutside zone lon lat then false
  else
    match zone.geometry with
    | Geometry.polygon rings => pointInPolygon (lon, lat) (rings.headD [])
    | Geometry.multiPolygon polys =>
        polys.any (fun polygonCoords => pointInPolygon (lon, lat) (polygonCoords.headD []))

/- Source: calculateCentroid, returning (lat, lon); vertex mean of the
   first ring of the first part, with the fixed fallback point. -/
def calculateCentroid (geometry : Geometry) : ℚ × ℚ :=
  let coords :=
    match geometry with
    | Geometry.polygon rings => rings.headD []
    | Geometry.multiPolygon polys => (polys.headD []).headD []
  match coords with
  | [] => ((45709 : ℚ) / 10000, (-742973 : ℚ) / 10000)
  | _ :: _ =>
      let sumLon := coords.foldl (fun a p => a + p.1) 0
      let sumLat := coords.foldl (fun a p => a + p.2) 0
      (sumLat / coords.length, sumLon / coords.length)

/- Source: findZoneByPoint. -/
def findZoneByPoint (lat lon : ℚ) (zones : List PostalZone) : Option PostalZone :=
  let candidates := zones.filter (fun z =>
    let b := z.bbox
    decide (b.1 ≤ lon) && decide (lon ≤ b.2.2.1) && decide (b.2.1 ≤ lat) && decide (lat ≤ b.2.2.2))
  candidates.find? (fun zone => isPointInFeature lon lat zone)

/-! Geocoding resolver (source: fetchAddressLocation with its helpers
    geocodeWithGoogleMaps and the Nominatim request). -/

structure Coord where
  lat : ℚ
  lon : ℚ
  deriving DecidableEq, Repr

/- Outcome of one Nominatim request: an HTTP 200 body with a first result
   and its importance score (absent importance modelled as 0, which the
   source's truthiness test rejects), an empty result list, a 429, or any
   other non-ok status, network error or timeout (all of which the source
   lets fall through identically). -/
inductive NomResp where
  | found (c : Coord) (importance : ℚ)
  | notFound
  | http429
  | failOther
  deriving DecidableEq, Repr

/- Providers are oracles indexed by the number of calls already issued, so
   theorems quantify over every response sequence; the query string built
   by the source is passed along for fidelity. -/
structure GeoProviders where
  google : Nat → String → Option Coord
  nominatim : Nat → String → NomResp

structure GeoState where
  cache : List (String × Option Coord)
  googleCalls : Nat
  nomCalls : Nat
  fuelExhausted : Bool
  deriving DecidableEq, Repr

def cacheLookup (cache : List (String × Option Coord)) (k : String) : Option (Option Coord) :=
  (cache.find? (fun p => p.1 = k)).map (fun p => p.2)

def cacheSave (st : GeoState) (k : String) (v : Option Coord) : GeoState :=
  { st with cache := (k, v) :: st.cache }

/- Timeout constants of the source: AbortSignal.timeout(10000) on the
   Nominatim request, the 8000 ms per-record race in processTemplateBatch,
   and the 30000 ms quota pause. -/
def nominatimTimeoutMs : Nat := 10000

def rowTimeoutMs : Nat := 8000

def quotaPauseMs : Nat := 30000

/- Query construction of fetchAddressLocation, line for line. -/
def strictCityOf (city : String) : String :=
  if containsSub (normalizeStr city) "bogota" then "Bogotá" else trimStr city

def departmentStrictOf (city department : String) : String :=
  if trimStr department ≠ "" then trimStr department
  else if containsSub (normalizeStr city) "bogota" then "Bogotá D.C." else ""

def geoFullQuery (address city department recipient : String) : String :=
  let cleanAddress := normalizeAddressForGeocoding address
  let strictCity := strictCityOf city
  let departmentStrict := departmentStrictOf city department
  let primaryAddress := stripExtraneousAddressParts cleanAddress strictCity
  let locationString := primaryAddress ++ ", " ++ strictCity ++
    (if departmentStrict ≠ "" then ", " ++ departmentStrict else "")
  let locationString := locationString ++
    (if trimStr recipient ≠ "" then ", " ++ trimStr recipient else "")
  locationString ++ ", Colombia"

/- Cache key: loc_search_ plus the lowercased full (level 0) query.  The
   simplification level and the retry counter do not enter the key. -/
def geoKey (address city department recipient : String) : String :=
  "loc_search_" ++ toLowerStr (geoFullQuery address city department recipient)

/- Street-only extraction for simplification level 1:
   /^(Calle|Carrera|...)\s+[^,]+/i applied to the cleaned address. -/
def streetOnlyOf (cleanAddress : String) : String :=
  let cs := cleanAddress.data.toArray
  let tryAlt : String → Option String := fun alt =>
    if patMatchAt cs 0 alt.data then
      let p := alt.data.length
      let w := runLen isWsChar cs p
      if w = 0 then none
      else
        let r := runLen (fun c => c ≠ ',') cs (p + w)
        if r = 0 then none else some (trimStr (extractStr cs 0 (p + w + r)))
    else none
  let rec go : List String → Option String
    | [] => none
    | a :: rest =>
        match tryAlt a with
        | some r => some r
        | none => go rest
  match go streetTypesList with
  | some r => r
  | none => cleanAddress

/- Query string sent to Nominatim per simplification level (the q-style
   query; the structured-URL variant and the Bogota viewbox only change
   request parameters, not control flow). -/
def nominatimQuery (address city department recipient : String) (simplification : Nat) : String :=
  let cleanAddress := normalizeAddressForGeocoding address
  let strictCity := strictCityOf city
  let departmentStrict := departmentStrictOf city department
  if simplification = 1 then
    streetOnlyOf cleanAddress ++ ", " ++ strictCity ++
      (if departmentStrict ≠ "" then ", " ++ departmentStrict else "") ++ ", Colombia"
  else if simplification = 2 then
    strictCity ++ (if departmentStrict ≠ "" then ", " ++ departmentStrict else "") ++ ", Colombia"
  else geoFullQuery address city department recipient

/- Classification of the Nominatim try block: accept when the importance is
   truthy and at least the level threshold (0.7 at level 0, 0.5 above),
   escalate on low confidence below level 2, retry on a 429 while under 5
   attempts, otherwise fall through to the second Google attempt. -/
inductive NomOutcome where
  | success (c : Coord)
  | escalate
  | retrySame
  | fallThrough
  deriving DecidableEq, Repr

def respOutcome (resp : NomResp) (retryCount simplification : Nat) : NomOutcome :=
  match resp with
  | NomResp.found c imp =>
      let minImp : ℚ := if simplification = 0 then 7 / 10 else 1 / 2
      if imp ≠ 0 ∧ minImp ≤ imp then NomOutcome.success c
      else if simplification < 2 then NomOutcome.escalate
      else NomOutcome.fallThrough
  | NomResp.notFound => NomOutcome.fallThrough
  | NomResp.http429 => if retryCount < 5 then NomOutcome.retrySame else NomOutcome.fallThrough
  | NomResp.failOther => NomOutcome.fallThrough

/- Source: fetchAddressLocation.  Control flow, cache reads and writes and
   self-calls are transcribed branch for branch; note that every recursive
   self-call of the source passes only five arguments, dropping the
   recipient, which is mirrored by the literal "" below.  The fuel argument
   makes the recursion structural; fuelExhausted marks the (never reached,
   see the termination theorem) fuel-out case. -/
def fetchLocAux (P : GeoProviders) :
    Nat → String → String → String → String → Nat → Nat → GeoState → Option Coord × GeoState
  | 0, _, _, _, _, _, _, st => (none, { st with fuelExhausted := true })
  | fuel + 1, address, city, department, recipient, retryCount, simplification, st =>
      if trimStr address = "" then (none, st)
      else
        let key := geoKey address city department recipient
        match cacheLookup st.cache key with
        | some (some c) => (some c, st)
        | some none =>
            if simplification = 0 then
              fetchLocAux P fuel address city department "" retryCount 1 st
            else (none, st)
        | none =>
            let fullQuery := geoFullQuery address city department recipient
            let g1 := P.google st.googleCalls fullQuery
            let st1 := { st with googleCalls := st.googleCalls + 1 }
            match g1 with
            | some c => (some c, cacheSave st1 key (some c))
            | none =>
                let sq := nominatimQuery address city department recipient simplification
                let resp := P.nominatim st1.nomCalls sq
                let st2 := { st1 with nomCalls := st1.nomCalls + 1 }
                match respOutcome resp retryCount simplification with
                | NomOutcome.success c => (some c, cacheSave st2 key (some c))
                | NomOutcome.escalate =>
                    fetchLocAux P fuel address city department "" retryCount (simplification + 1) st2
                | NomOutcome.retrySame =>
                    fetchLocAux P fuel address city department "" (retryCount + 1) simplification st2
                | NomOutcome.fallThrough =>
                    let g2 := P.google st2.googleCalls fullQuery
                    let st3 := { st2 with googleCalls := st2.googleCalls + 1 }
                    match g2 with
                    | some c => (some c, cacheSave st3 key (some c))
                    | none =>
                        if simplification < 2 then
                          fetchLocAux P fuel address city department "" retryCount (simplification + 1) st3
                        else (none, cacheSave st3 key none)

/- Measure on the finite (simplification, retry) state space: every
   self-call either raises the level (bounded by 2) or the retry counter
   (bounded by 5), so this quantity strictly decreases. -/
def geoMeasure (retryCount simplification : Nat) : Nat :=
  (2 - simplification) * 6 + (5 - retryCount) + 1

/- Fuel sufficient for the initial state (level 0, retry 0). -/
def fetchFuel : Nat := 18

def fetchAddressLocation (P : GeoProviders)
    (address city department recipient : String)
    (retryCount simplification : Nat) (st : GeoState) : Option Coord × GeoState :=
  fetchLocAux P fetchFuel address city department recipient retryCount simplification st

/-! Address resolution orchestrator (source: resolveSingleAddress with the
    municipal-index lookups getMunicipalIndexByDane and
    getMunicipalIndexByCityName). -/

structure MunicipalPostalEntry where
  codigo_postal : String
  tipo : String
  deriving DecidableEq, Repr

structure MunicipalIndexEntry where
  dane : String
  nombre_municipio : String
  nombre_departamento : String
  entries : List MunicipalPostalEntry
  preferred_postal : String
  deriving DecidableEq, Repr

/- Outcome of one awaited fetchAddressLocation inside resolveSingleAddress:
   a resolved (possibly null) location, a rejection whose message is the
   distinguished QUOTA_EXCEEDED, or any other rejection. -/
inductive GeoCallResult where
  | loc (c : Option Coord)
  | quotaError
  | otherError
  deriving DecidableEq, Repr

inductive GeoErr where
  | quota
  deriving DecidableEq, Repr

structure ResolveResult where
  postalCode : String
  coords : Option (ℚ × ℚ)
  localidad : String
  deriving DecidableEq, Repr

/- Effectful dependencies of resolveSingleAddress as oracles: the municipal
   index store keyed by the padded admin code, the in-memory name map, the
   warm zones-by-dane index with its readiness flag, the geocoder and the
   reverse geocoder indexed by call order. -/
structure ResolveDeps where
  muniIndexByDane : String → Option MunicipalIndexEntry
  muniNameMap : String → Option String
  zonesIndexReady : Bool
  zonesByDane : String → List PostalZone
  geocode : Nat → GeoCallResult
  reverseLocalidad : Nat → Option String

/- Source: the admin-code normalization used throughout:
   String(code).replace(/\D/g,'').padStart(5,'0').slice(-5). -/
def pad5 (code : String) : String :=
  let digits := code.data.filter isDigitChar
  let padded := if digits.length < 5 then List.replicate (5 - digits.length) '0' ++ digits else digits
  String.mk (padded.drop (padded.length - 5))

/- Source: getMunicipalIndexByCityName (normalizeCityKey, the in-memory
   name map, then the by-dane store which pads its argument). -/
def getMunicipalIndexByCityName (deps : ResolveDeps) (city : String) :
    Option MunicipalIndexEntry :=
  match deps.muniNameMap (normalizeCityKey city) with
  | some d => deps.muniIndexByDane (pad5 d)
  | none => none

/- Source: /vereda|rural|finca|km\s*\d/i.test(address). -/
def kmDigitAt (cs : Array Char) (i : Nat) : Bool :=
  (charAt cs i).any (fun c => ciEqChar c 'k') &&
  (charAt cs (i + 1)).any (fun c => ciEqChar c 'm') &&
  (let p := i + 2 + runLen isWsChar cs (i + 2)
   (charAt cs p).any isDigitChar)

def ruralHint (address : String) : Bool :=
  containsCI address "vereda" || containsCI address "rural" || containsCI address "finca" ||
    (let cs := address.data.toArray
     (List.range cs.size).any (fun i => kmDigitAt cs i))

/- Zone center with the JS || fallbacks of the direct-lookup branch:
   zone.centerLat || centroid.lat and zone.centerLon || centroid.lon,
   where 0 and a missing field are both falsy. -/
def zoneCenterPair (z : PostalZone) : ℚ × ℚ :=
  let c := calculateCentroid z.geometry
  (match z.centerLat with
   | some v => if v = 0 then c.1 else v
   | none => c.1,
   match z.centerLon with
   | some v => if v = 0 then c.2 else v
   | none => c.2)

/- Zone center with the typeof-number guard of the fallback branches:
   both components present, else the centroid pair. -/
def zoneCenterTyped (z : PostalZone) : ℚ × ℚ :=
  match z.centerLat, z.centerLon with
  | some la, some lo => (la, lo)
  | _, _ => calculateCentroid z.geometry

/- Postal-code selection of the direct DANE lookup: the preferred code,
   refined to the urban or rural entry by the rural-keyword heuristic when
   an address is present and the entry lists more than one code. -/
def daneSelectedCP (mi : MunicipalIndexEntry) (address : String) : String :=
  if address ≠ "" ∧ 1 < mi.entries.length then
    match mi.entries.find? (fun e =>
      if ruralHint address then containsSub (normalizeStr e.tipo) "rural"
      else containsSub (normalizeStr e.tipo) "urb") with
    | some refined => refined.codigo_postal
    | none => mi.preferred_postal
  else mi.preferred_postal

/- Strategy 1 and 1b of resolveSingleAddress: municipality-name match,
   city-synonym expansion, then the normalized-name scan over the whole
   database. -/
def zonesByNameStrategy (localZonesByMuni : String → List PostalZone)
    (db : List PostalZone) (normCity : String) : List PostalZone :=
  let candidates0 := localZonesByMuni normCity
  if candidates0 ≠ [] then candidates0
  else
    let base := trimStr (globalReplace (wordAltsMatcher ["dc"] "") normCity)
    let synonyms :=
      (if base ≠ "" ∧ base ≠ normCity then [base] else []) ++
      (if containsSub normCity "bogota" then ["bogota"] else []) ++
      (if containsSub normCity "ibague" then ["ibague"] else []) ++
      (if containsSub normCity "barranquilla" then ["barranquilla"] else []) ++
      (if containsSub normCity "medellin" then ["medellin"] else [])
    match synonyms.find? (fun syn => localZonesByMuni syn ≠ []) with
    | some syn => localZonesByMuni syn
    | none => db.filter (fun z => normalizeCityKey z.nombre_municipio = normCity)

/- Strategy 2: DANE-code match via the warm index when ready, else exact,
   then starts-with, then ends-with on the zero-padded code. -/
def zonesByDaneStrategy (deps : ResolveDeps) (db : List PostalZone)
    (dane : String) : List PostalZone :=
  let d5 := pad5 dane
  let byD := if deps.zonesIndexReady then deps.zonesByDane d5 else []
  if byD ≠ [] then byD
  else
    let byExact := db.filter (fun z => pad5 z.codigo_municipio = d5)
    let byStarts :=
      if byExact ≠ [] then byExact
      else db.filter (fun z => (pad5 z.codigo_municipio).startsWith d5)
    if byStarts ≠ [] then byStarts
    else db.filter (fun z => d5.startsWith (pad5 z.codigo_municipio))

/- Strategy 3: department-name match with the capital special case. -/
def zonesByDeptStrategy (db : List PostalZone) (normCity department : String) :
    List PostalZone :=
  let depNorm := normalizeStr department
  let depCandidates :=
    if depNorm ≠ "" then db.filter (fun z => normalizeStr z.nombre_departamento = depNorm)
    else []
  if depCandidates ≠ [] then depCandidates
  else if containsSub normCity "bogota" then
    db.filter (fun z => normalizeStr z.nombre_departamento = normalizeStr "Bogotá D.C.")
  else []

/- Candidate-zone selection of resolveSingleAddress: the three strategies
   in source order, each tried only when the previous ones found nothing. -/
def candidateZones (deps : ResolveDeps) (localZonesByMuni : String → List PostalZone)
    (db : List PostalZone) (normCity dane department : String) : List PostalZone :=
  let candidates1 := zonesByNameStrategy localZonesByMuni db normCity
  let candidates2 :=
    if candidates1 = [] ∧ dane ≠ "" then zonesByDaneStrategy deps db dane
    else candidates1
  if candidates2 = [] then zonesByDeptStrategy db normCity department
  else candidates2

/- Municipal-index fallback shared by the two in-block sites: preferred
   code by DANE, else by city name, with the typeof-guarded zone center. -/
def muniPreferredFallback (deps : ResolveDeps) (dane strictCityName : String)
    (zonesToCheck db : List PostalZone) (pcIn : String) (coordsIn : Option (ℚ × ℚ)) :
    String × Option (ℚ × ℚ) :=
  let takeEntry : MunicipalIndexEntry → String × Option (ℚ × ℚ) := fun i =>
    let pc := i.preferred_postal
    match (zonesToCheck.find? (fun z => z.codigo_postal = pc)).orElse
        (fun _ => db.find? (fun z => z.codigo_postal = pc)) with
    | some zc => (pc, some (zoneCenterTyped zc))
    | none => (pc, coordsIn)
  let cityBranch : String × Option (ℚ × ℚ) :=
    match getMunicipalIndexByCityName deps strictCityName with
    | some i2 => if i2.preferred_postal ≠ "" then takeEntry i2 else (pcIn, coordsIn)
    | none => (pcIn, coordsIn)
  match (if dane ≠ "" then deps.muniIndexByDane (pad5 dane) else none) with
  | some i => if i.preferred_postal ≠ "" then takeEntry i else cityBranch
  | none => cityBranch

structure RowInput where
  dane : String
  city : String
  department : String
  address : String
  recipient : String
  deriving DecidableEq, Repr

instance : Inhabited RowInput := ⟨⟨"", "", "", "", ""⟩⟩

/- Tail of the geocoding branch after the first location resolved:
   the reverse-localidad enrichment and the localidad-equality override
   (source lines following the containment tests), then the final
   REVISAR_DIRECCION adjustment that closes the try block. -/
def finishLocBranch (deps : ResolveDeps) (zonesToCheck : List PostalZone)
    (pc : String) (coords : Option (ℚ × ℚ)) (fl : String) : Except GeoErr ResolveResult :=
  let fl2 :=
    if fl = "" then
      match deps.reverseLocalidad 0 with
      | some nm => if nm ≠ "" then nm else ""
      | none => ""
    else fl
  let pc2 :=
    if fl2 ≠ "" then
      match zonesToCheck.find? (fun z => normalizeStr z.nombre_localidad = normalizeStr fl2) with
      | some byLoc => byLoc.codigo_postal
      | none => pc
    else pc
  let pc3 :=
    if (pc2 = "" ∨ containsSub pc2 "DIR_NO_ENCONTRADA") ∧ zonesToCheck ≠ [] then
      "REVISAR_DIRECCION"
    else pc2
  Except.ok ⟨pc3, coords, fl2⟩

/- Geocoding block of resolveSingleAddress (the try statement): the
   distinguished QUOTA_EXCEEDED rejection is re-thrown, any other
   rejection degrades to ERROR_GEOCODIFICACION with the fields set so far. -/
def geocodeBlock (deps : ResolveDeps) (row : RowInput) (db zonesToCheck : List PostalZone)
    (strictCityName : String) : Except GeoErr ResolveResult :=
  match deps.geocode 0 with
  | GeoCallResult.quotaError => Except.error GeoErr.quota
  | GeoCallResult.otherError => Except.ok ⟨"ERROR_GEOCODIFICACION", none, ""⟩
  | GeoCallResult.loc (some c) =>
      let coordsA := some (c.lat, c.lon)
      let bboxPrefilter := zonesToCheck.filter (fun z =>
        let b := z.bbox
        decide (b.1 ≤ c.lon) && decide (c.lon ≤ b.2.2.1) &&
        decide (b.2.1 ≤ c.lat) && decide (c.lat ≤ b.2.2.2))
      match bboxPrefilter.find? (fun zone => isPointInFeature c.lon c.lat zone) with
      | some m => finishLocBranch deps zonesToCheck m.codigo_postal coordsA m.nombre_localidad
      | none =>
          match deps.geocode 1 with
          | GeoCallResult.quotaError => Except.error GeoErr.quota
          | GeoCallResult.otherError => Except.ok ⟨"ERROR_GEOCODIFICACION", coordsA, ""⟩
          | GeoCallResult.loc loc2 =>
              let step :=
                match loc2 with
                | some c2 =>
                    match zonesToCheck.find? (fun zone => isPointInFeature c2.lon c2.lat zone) with
                    | some m2 => (m2.codigo_postal, some (c2.lat, c2.lon), m2.nombre_localidad)
                    | none => ("REVISAR_DIRECCION", coordsA, "")
                | none => ("REVISAR_DIRECCION", coordsA, "")
              let adjusted :=
                if step.1 = "REVISAR_DIRECCION" then
                  let fb := muniPreferredFallback deps row.dane strictCityName zonesToCheck db
                    step.1 step.2.1
                  (fb.1, fb.2, step.2.2)
                else step
              finishLocBranch deps zonesToCheck adjusted.1 adjusted.2.1 adjusted.2.2
  | GeoCallResult.loc none =>
      match deps.geocode 1 with
      | GeoCallResult.quotaError => Except.error GeoErr.quota
      | GeoCallResult.otherError => Except.ok ⟨"ERROR_GEOCODIFICACION", none, ""⟩
      | GeoCallResult.loc retryLoc =>
          let step :=
            match retryLoc with
            | some rc =>
                let coordsR := some (rc.lat, rc.lon)
                match zonesToCheck.find? (fun zone => isPointInFeature rc.lon rc.lat zone) with
                | some m2 => (m2.codigo_postal, coordsR, m2.nombre_localidad)
                | none =>
                    match deps.reverseLocalidad 0 with
                    | some nm =>
                        if nm ≠ "" then
                          match zonesToCheck.find? (fun z =>
                              normalizeStr z.nombre_localidad = normalizeStr nm) with
                          | some byLoc2 => (byLoc2.codigo_postal, coordsR, nm)
                          | none => ("DIR_NO_ENCONTRADA", coordsR, nm)
                        else ("DIR_NO_ENCONTRADA", coordsR, "")
                    | none => ("DIR_NO_ENCONTRADA", coordsR, "")
            | none => ("DIR_NO_ENCONTRADA", none, "")
          let adjusted :=
            if step.1 = "" ∨ containsSub step.1 "DIR_NO_ENCONTRADA" ∨
                containsSub step.1 "REVISAR_DIRECCION" then
              let fb := muniPreferredFallback deps row.dane strictCityName zonesToCheck db
                step.1 step.2.1
              (fb.1, fb.2, step.2.2)
            else step
          let pc3 :=
            if (adjusted.1 = "" ∨ containsSub adjusted.1 "DIR_NO_ENCONTRADA") ∧
                zonesToCheck ≠ [] then
              "REVISAR_DIRECCION"
            else adjusted.1
          Except.ok ⟨pc3, adjusted.2.1, adjusted.2.2⟩

/- Source: resolveSingleAddress.  The zonesByMuni parameter is optional as
   in the source; when absent the per-call grouping over the database is
   used (here as a filter per key, which agrees with groupBy membership
   and order). -/
def resolveSingleAddress (deps : ResolveDeps) (row : RowInput) (db : List PostalZone)
    (zonesByMuni : Option (String → List PostalZone)) : Except GeoErr ResolveResult :=
  let localZonesByMuni : String → List PostalZone :=
    match zonesByMuni with
    | some m => m
    | none => fun k => db.filter (fun z => normalizeCityKey z.nombre_municipio = k)
  if row.city = "" ∧ row.address = "" then Except.ok ⟨"DATOS_INCOMPLETOS", none, ""⟩
  else
    let cleanCityName := trimStr (globalReplace parensMatcher row.city)
    let normCity := normalizeCityKey cleanCityName
    let zonesToCheck := candidateZones deps localZonesByMuni db normCity row.dane row.department
    let strictCityName :=
      if containsSub (normalizeStr cleanCityName) "bogota" then "Bogotá" else cleanCityName
    let shortcut : Option ResolveResult :=
      if row.dane ≠ "" ∧ row.dane ≠ "00000" then
        match deps.muniIndexByDane (pad5 row.dane) with
        | some mi =>
            if mi.preferred_postal ≠ "" then
              let selectedCP := daneSelectedCP mi row.address
              match (zonesToCheck.find? (fun z => z.codigo_postal = selectedCP)).orElse
                  (fun _ => db.find? (fun z => z.codigo_postal = selectedCP)) with
              | some zone =>
                  some ⟨selectedCP, some (zoneCenterPair zone),
                    if zone.nombre_localidad ≠ "" then zone.nombre_localidad
                    else mi.nombre_municipio⟩
              | none => some ⟨selectedCP, none, ""⟩
            else none
        | none => none
      else none
    match shortcut with
    | some r => Except.ok r
    | none =>
        if zonesToCheck = [] ∧ (row.city ≠ "" ∨ row.dane ≠ "") then
          Except.ok ⟨"MUNICIPIO_SIN_ZONAS", none, ""⟩
        else if row.address ≠ "" ∧ zonesToCheck ≠ [] then
          geocodeBlock deps row db zonesToCheck strictCityName
        else if row.address = "" then Except.ok ⟨"DATOS_INCOMPLETOS", none, ""⟩
        else Except.ok ⟨"SIN_COBERTURA", none, ""⟩

/-! Batch processor (source: processTemplateBatch).  The cooperative worker
    pool interleaves at await points; the model is the sequential queue
    semantics: one unit of work is popped, its resolution outcome applied,
    and the loop continues.  Cancellation is the signal checked at the top
    of the worker loop; the abort listener clears the queue and resolves
    the defined entries only.  The per-unit outcome abstracts the
    Promise.race of resolveSingleAddress against the 8000 ms timeout. -/

structure AddressTemplate where
  dane_destino : String
  ciudad_destino : String
  departamento_destino : String
  direccion : String
  codigo_postal_asignado : String
  coordenadas : Option (ℚ × ℚ)
  localidad_detectada : String
  deriving DecidableEq, Repr

/- Outcome of one raced unit: a fulfilled resolution, the 8 s timeout
   (which the race resolves to DIR_NO_ENCONTRADA), the distinguished
   QUOTA_EXCEEDED rejection, or any other rejection. -/
inductive BatchOutcome where
  | res (r : ResolveResult)
  | timeout
  | quotaError
  | otherError
  deriving DecidableEq, Repr

structure BatchState where
  queue : List Nat
  results : List (Option AddressTemplate)
  processed : Nat
  attempts : Nat
  pauses : List Nat
  abortedFlag : Bool
  deriving DecidableEq, Repr

def mkTemplateEntry (row : RowInput) (r : ResolveResult) : AddressTemplate :=
  { dane_destino := pad5 row.dane
    ciudad_destino := row.city
    departamento_destino := row.department
    direccion := row.address
    codigo_postal_asignado := r.postalCode
    coordenadas := r.coords
    localidad_detectada := r.localidad }

/- Cancellation signal: aborted once the given number of units has been
   processed (none models a run that is never cancelled). -/
def abortedAt (abortAfter : Option Nat) (processed : Nat) : Bool :=
  match abortAfter with
  | none => false
  | some k => k ≤ processed

def runBatchAux (rows : List RowInput) (resolver : Nat → BatchOutcome)
    (abortAfter : Option Nat) : Nat → BatchState → BatchState
  | 0, st => st
  | fuel + 1, st =>
      match st.queue with
      | [] => st
      | i :: rest =>
          if abortedAt abortAfter st.processed then
            { st with queue := [], abortedFlag := true }
          else
            match resolver st.attempts with
            | BatchOutcome.res r =>
                runBatchAux rows resolver abortAfter fuel
                  { st with queue := rest,
                            results := st.results.set i (some (mkTemplateEntry (rows.getD i default) r)),
                            processed := st.processed + 1,
                            attempts := st.attempts + 1 }
            | BatchOutcome.timeout =>
                runBatchAux rows resolver abortAfter fuel
                  { st with queue := rest,
                            results := st.results.set i
                              (some (mkTemplateEntry (rows.getD i default) ⟨"DIR_NO_ENCONTRADA", none, ""⟩)),
                            processed := st.processed + 1,
                            attempts := st.attempts + 1 }
            | BatchOutcome.quotaError =>
                runBatchAux rows resolver abortAfter fuel
                  ⟨i :: rest, st.results, st.processed, st.attempts + 1,
                    quotaPauseMs :: st.pauses, st.abortedFlag⟩
            | BatchOutcome.otherError =>
                runBatchAux rows resolver abortAfter fuel
                  { st with queue := rest,
                            results := st.results.set i
                              (some { dane_destino := pad5 (rows.getD i default).dane
                                      ciudad_destino := (rows.getD i default).city
                                      departamento_destino := (rows.getD i default).department
                                      direccion := (rows.getD i default).address
                                      codigo_postal_asignado := "ERROR_PROCESO"
                                      coordenadas := none
                                      localidad_detectada := "" }),
                            processed := st.processed + 1,
                            attempts := st.attempts + 1 }

def initBatchState (n : Nat) : BatchState :=
  ⟨List.range n, List.replicate n none, 0, 0, [], false⟩

/- Returned array: the completed run resolves the fully assigned results
   array, the aborted run resolves results.filter(r => r !== undefined);
   both are the defined entries in index order. -/
def processTemplateBatch (rows : List RowInput) (resolver : Nat → BatchOutcome)
    (abortAfter : Option Nat) (fuel : Nat) : List AddressTemplate :=
  ((runBatchAux rows resolver abortAfter fuel (initBatchState rows.length)).results).filterMap id



lemma respOutcome_escalate_lt {resp : NomResp} {r s : Nat}
    (h : respOutcome resp r s = NomOutcome.escalate) : s < 2 := by
  cases resp with
  | found c imp =>
      simp only [respOutcome] at h
      split_ifs at h with h1 h2
      all_goals simp_all
  | notFound => simp [respOutcome] at h
  | http429 =>
      simp only [respOutcome] at h
      split_ifs at h with h1
  | failOther => simp [respOutcome] at h

lemma respOutcome_retry_lt {resp : NomResp} {r s : Nat}
    (h : respOutcome resp r s = NomOutcome.retrySame) : r < 5 := by
  cases resp with
  | found c imp =>
      simp only [respOutcome] at h
      split_ifs at h with h1 h2
  | notFound => simp [respOutcome] at h
  | http429 =>
      simp only [respOutcome] at h
      split_ifs at h with h1
      all_goals simp_all
  | failOther => simp [respOutcome] at h

/-- C9: the per-address fallback chain always terminates for every input
    and every sequence of provider responses: each self-call raises either
    the simplification level (bounded by 2) or the 429 retry counter
    (bounded by 5), so any fuel dominating the (level, retry) measure is
    never exhausted and resolution ends with a coordinate or a (cached)
    negative. -/
theorem fetchLoc_terminates (P : GeoProviders) :
    ∀ (fuel : Nat) (address city department recipient : String)
      (retryCount simplification : Nat) (st : GeoState),
    simplification ≤ 2 → retryCount ≤ 5 → st.fuelExhausted = false →
    geoMeasure retryCount simplification ≤ fuel →
    (fetchLocAux P fuel address city department recipient
        retryCount simplification st).2.fuelExhausted = false := by
  intro fuel
  induction fuel with
  | zero =>
      intro address city department recipient r s st hs hr hst hm
      simp [geoMeasure] at hm
  | succ n ih =>
      intro address city department recipient r s st hs hr hst hm
      simp only [fetchLocAux]
      split
      · exact hst
      · split
        · exact hst
        · split
          · next h0 =>
              exact ih _ _ _ _ _ _ _ (by omega) hr hst
                (by simp only [geoMeasure] at hm ⊢; omega)
          · exact hst
        · split
          · simpa [cacheSave] using hst
          · split
            · simpa [cacheSave] using hst
            · next hesc =>
                have hlt := respOutcome_escalate_lt hesc
                exact ih _ _ _ _ _ _ _ (by omega) hr hst
                  (by simp only [geoMeasure] at hm ⊢; omega)
            · next hretry =>
                have hlt := respOutcome_retry_lt hretry
                exact ih _ _ _ _ _ _ _ hs (by omega) hst
                  (by simp only [geoMeasure] at hm ⊢; omega)
            · split
              · simpa [cacheSave] using hst
              · split
                · next hlt =>
                    exact ih _ _ _ _ _ _ _ (by omega) hr hst
                      (by simp only [geoMeasure] at hm ⊢; omega)
                · simpa [cacheSave] using hst

lemma cacheLookup_save (st : GeoState) (k : String) (v : Option Coord) :
    cacheLookup (cacheSave st k v).cache k = some v := by
  simp [cacheLookup, cacheSave]

/- Every terminal outcome of fetchAddressLocation with an empty recipient
   is recorded in the cache under the level-0 key: after the call, looking
   the key up yields exactly the returned value. -/
theorem fetchLoc_caches (P : GeoProviders) :
    ∀ (fuel : Nat) (address city department : String)
      (retryCount simplification : Nat) (st : GeoState),
    simplification ≤ 2 → retryCount ≤ 5 →
    geoMeasure retryCount simplification ≤ fuel →
    trimStr address ≠ "" →
    cacheLookup (fetchLocAux P fuel address city department ""
        retryCount simplification st).2.cache (geoKey address city department "") =
      some (fetchLocAux P fuel address city department ""
        retryCount simplification st).1 := by
  intro fuel
  induction fuel with
  | zero =>
      intro address city department r s st hs hr hm ha
      simp [geoMeasure] at hm
  | succ n ih =>
      intro address city department r s st hs hr hm ha
      simp only [fetchLocAux, if_neg ha]
      split
      · next heq => simpa using heq
      · split
        · next h0 =>
            exact ih _ _ _ _ _ _ (by omega) hr (by simp only [geoMeasure] at hm ⊢; omega) ha
        · next heq _ => simpa using heq
      · split
        · simp [cacheLookup_save]
        · split
          · simp [cacheLookup_save]
          · next hesc =>
              have hlt := respOutcome_escalate_lt hesc
              exact ih _ _ _ _ _ _ (by omega) hr (by simp only [geoMeasure] at hm ⊢; omega) ha
          · next hretry =>
              have hlt := respOutcome_retry_lt hretry
              exact ih _ _ _ _ _ _ hs (by omega) (by simp only [geoMeasure] at hm ⊢; omega) ha
          · split
            · simp [cacheLookup_save]
            · split
              · next hlt =>
                  exact ih _ _ _ _ _ _ (by omega) hr (by simp only [geoMeasure] at hm ⊢; omega) ha
              · simp [cacheLookup_save]

/-- C5 (amended): for a record with an empty recipient the cache gives full
    replay: whatever terminal outcome a first fetchAddressLocation call
    reached (a coordinate or a negative), a second call with the same
    normalized query and the resulting cache returns the identical result,
    issues zero Google and zero Nominatim calls — under any provider
    behaviour — and leaves the cache unchanged.  With a nonempty recipient
    this fails, because the recursive self-calls drop the recipient (see
    the counterexample). -/
theorem fetchAddressLocation_cached_replay (P Q : GeoProviders)
    (address city department : String) (st0 : GeoState) :
    (fetchAddressLocation Q address city department "" 0 0
        ⟨(fetchAddressLocation P address city department "" 0 0 st0).2.cache, 0, 0, false⟩).1 =
      (fetchAddressLocation P address city department "" 0 0 st0).1 ∧
    (fetchAddressLocation Q address city department "" 0 0
        ⟨(fetchAddressLocation P address city department "" 0 0 st0).2.cache, 0, 0, false⟩).2 =
      ⟨(fetchAddressLocation P address city department "" 0 0 st0).2.cache, 0, 0, false⟩ := by
  show (fetchLocAux Q 18 address city department "" 0 0
        ⟨(fetchLocAux P 18 address city department "" 0 0 st0).2.cache, 0, 0, false⟩).1 =
      (fetchLocAux P 18 address city department "" 0 0 st0).1 ∧
    (fetchLocAux Q 18 address city department "" 0 0
        ⟨(fetchLocAux P 18 address city department "" 0 0 st0).2.cache, 0, 0, false⟩).2 =
      ⟨(fetchLocAux P 18 address city department "" 0 0 st0).2.cache, 0, 0, false⟩
  by_cases ha : trimStr address = ""
  · set res := fetchLocAux P 18 address city department "" 0 0 st0 with hres0
    have hres1 : res = (none, st0) := by
      rw [hres0, show (18 : Nat) = Nat.succ 17 from rfl, fetchLocAux.eq_2, if_pos ha]
    rw [show (18 : Nat) = Nat.succ 17 from rfl, fetchLocAux.eq_2, if_pos ha, hres1]
    exact ⟨rfl, rfl⟩
  · have hkey := fetchLoc_caches P 18 address city department 0 0 st0
      (by omega) (by omega) (by decide) ha
    set res := fetchLocAux P 18 address city department "" 0 0 st0 with hres0
    rw [show (18 : Nat) = Nat.succ 17 from rfl, fetchLocAux.eq_2, if_neg ha]
    dsimp only
    rw [hkey]
    cases hres : res.1 with
    | some c => exact ⟨rfl, rfl⟩
    | none =>
        dsimp only
        simp only [reduceIte]
        rw [show (17 : Nat) = Nat.succ 16 from rfl, fetchLocAux.eq_2, if_neg ha]
        dsimp only
        rw [hkey, hres]
        exact ⟨rfl, rfl⟩

lemma mem_cacheSave {st : GeoState} {key k : String} {val v : Option Coord}
    (h : (k, v) ∈ (cacheSave st key val).cache) : (k, v) ∈ st.cache ∨ k = key := by
  simp only [cacheSave, List.mem_cons, Prod.mk.injEq] at h
  rcases h with ⟨hk, _⟩ | h
  · exact Or.inr hk
  · exact Or.inl h

/-- C10 (amended): fetchAddressLocation derives its cache key solely from
    the level-0 normalized query of the invocation's arguments — never
    from the simplification level or retry counter — but the recursive
    self-calls drop the recipient, so every cache entry the call writes
    sits either under the key of its own four inputs or under the
    recipient-less level-0 key; for records with empty recipient both
    coincide, and a coordinate found at a simplified level is stored
    under, and subsequently returned for, the record's full-address query. -/
theorem fetchLoc_writes_level0_key (P : GeoProviders) :
    ∀ (fuel : Nat) (address city department recipient : String)
      (retryCount simplification : Nat) (st : GeoState) (k : String) (v : Option Coord),
    (k, v) ∈ (fetchLocAux P fuel address city department recipient
        retryCount simplification st).2.cache →
    (k, v) ∈ st.cache ∨ k = geoKey address city department recipient ∨
      k = geoKey address city department "" := by
  intro fuel
  induction fuel with
  | zero =>
      intro address city department recipient r s st k v h
      exact Or.inl h
  | succ n ih =>
      intro address city department recipient r s st k v h
      simp only [fetchLocAux] at h
      split at h
      · exact Or.inl h
      · split at h
        · exact Or.inl h
        · split at h
          · rcases ih _ _ _ _ _ _ _ _ _ h with h1 | h2 | h2
            · exact Or.inl h1
            · exact Or.inr (Or.inr h2)
            · exact Or.inr (Or.inr h2)
          · exact Or.inl h
        · split at h
          · rcases mem_cacheSave h with h1 | h2
            · exact Or.inl h1
            · exact Or.inr (Or.inl h2)
          · split at h
            · rcases mem_cacheSave h with h1 | h2
              · exact Or.inl h1
              · exact Or.inr (Or.inl h2)
            · rcases ih _ _ _ _ _ _ _ _ _ h with h1 | h2 | h2
              · exact Or.inl h1
              · exact Or.inr (Or.inr h2)
              · exact Or.inr (Or.inr h2)
            · rcases ih _ _ _ _ _ _ _ _ _ h with h1 | h2 | h2
              · exact Or.inl h1
              · exact Or.inr (Or.inr h2)
              · exact Or.inr (Or.inr h2)
            · split at h
              · rcases mem_cacheSave h with h1 | h2
                · exact Or.inl h1
                · exact Or.inr (Or.inl h2)
              · split at h
                · rcases ih _ _ _ _ _ _ _ _ _ h with h1 | h2 | h2
                  · exact Or.inl h1
                  · exact Or.inr (Or.inr h2)
                  · exact Or.inr (Or.inr h2)
                · rcases mem_cacheSave h with h1 | h2
                  · exact Or.inl h1
                  · exact Or.inr (Or.inl h2)

/- Providers for the concrete runs: all calls fail, or Google succeeds from
   its third call on. -/
def ceProvidersNone : GeoProviders :=
  { google := fun _ _ => none
    nominatim := fun _ _ => NomResp.notFound }

def ceProvidersLate : GeoProviders :=
  { google := fun n _ => if n = 2 then some ⟨1, 2⟩ else none
    nominatim := fun _ _ => NomResp.notFound }

/-- C9 (witness): the termination theorem at the entry fuel on a concrete
    input and provider sequence. -/
theorem fetchLoc_terminates_witness :
    (fetchLocAux ceProvidersNone 18 "x" "q" "" "" 0 0 ⟨[], 0, 0, false⟩).2.fuelExhausted = false :=
  fetchLoc_terminates ceProvidersNone 18 "x" "q" "" "" 0 0 ⟨[], 0, 0, false⟩
    (by decide) (by decide) rfl (by decide)

/-- C5 (counterexample): with a nonempty recipient the second identical
    call is not free: after a first call whose every provider attempt
    failed (a negative terminal outcome), repeating the same call with the
    resulting cache issues Google calls again, because the negative was
    recorded only under the recipient-less key dropped by the recursive
    escalation. -/
theorem fetch_repeat_reissues_with_recipient :
    ¬ ((fetchAddressLocation ceProvidersNone "x" "q" "" "r" 0 0
          ⟨(fetchAddressLocation ceProvidersNone "x" "q" "" "r" 0 0
              ⟨[], 0, 0, false⟩).2.cache, 0, 0, false⟩).2.googleCalls = 0 ∧
       (fetchAddressLocation ceProvidersNone "x" "q" "" "r" 0 0
          ⟨(fetchAddressLocation ceProvidersNone "x" "q" "" "r" 0 0
              ⟨[], 0, 0, false⟩).2.cache, 0, 0, false⟩).2.nomCalls = 0) := by
  decide

/-- C10 (counterexample): a coordinate obtained while processing a
    simplified level is not stored under the full-address query of the
    record when the record has a recipient: the run below succeeds at
    level 1, the write lands under the recipient-less key, and the key of
    the record's own four inputs stays absent from the cache. -/
theorem fetch_simplified_write_misses_recipient_key :
    cacheLookup (fetchAddressLocation ceProvidersLate "x" "q" "" "r" 0 0
        ⟨[], 0, 0, false⟩).2.cache (geoKey "x" "q" "" "r") = none ∧
    (cacheLookup (fetchAddressLocation ceProvidersLate "x" "q" "" "r" 0 0
        ⟨[], 0, 0, false⟩).2.cache (geoKey "x" "q" "" "")).isSome = true ∧
    geoKey "x" "q" "" "r" ≠ geoKey "x" "q" "" "" := by
  refine ⟨by decide, by decide, by decide⟩

/-- C10 (witness): the key-locality theorem applied at fuel zero to a
    concrete pre-populated cache. -/
theorem fetchLoc_writes_level0_key_witness :
    ("k", (none : Option Coord)) ∈ (⟨[("k", none)], 0, 0, false⟩ : GeoState).cache ∨
      "k" = geoKey "x" "q" "" "r" ∨ "k" = geoKey "x" "q" "" "" :=
  fetchLoc_writes_level0_key ceProvidersNone 0 "x" "q" "" "r" 0 0
    ⟨[("k", none)], 0, 0, false⟩ "k" none (by decide)

/- Batch invariant: the queue holds exactly the indices whose result slot
   is still unassigned, without duplicates, all within bounds. -/
def BatchInv (st : BatchState) : Prop :=
  st.queue.Nodup ∧ (∀ j ∈ st.queue, j < st.results.length) ∧
    (∀ j, j < st.results.length → (st.results[j]? = some none ↔ j ∈ st.queue))

lemma batchInv_init (n : Nat) : BatchInv (initBatchState n) := by
  refine ⟨by simpa [initBatchState] using List.nodup_range n, ?_, ?_⟩
  · intro j hj
    simp only [initBatchState] at hj ⊢
    simpa using List.mem_range.mp hj
  · intro j hj
    simp only [initBatchState, List.length_replicate] at hj ⊢
    simp [List.getElem?_replicate, hj, List.mem_range]

lemma batchInv_set {st : BatchState} {i : Nat} {rest : List Nat}
    (hq : st.queue = i :: rest) (hinv : BatchInv st) (e : AddressTemplate)
    (p a : Nat) (pa : List Nat) (ab : Bool) :
    BatchInv ⟨rest, st.results.set i (some e), p, a, pa, ab⟩ := by
  obtain ⟨hnd, hlt, hiff⟩ := hinv
  rw [hq] at hnd hlt hiff
  have hilt : i < st.results.length := hlt i (by simp)
  refine ⟨(List.nodup_cons.mp hnd).2, ?_, ?_⟩
  · intro j hj
    simpa using hlt j (by simp [hj])
  · intro j hj
    simp only [List.length_set] at hj
    show (st.results.set i (some e))[j]? = some none ↔ j ∈ rest
    by_cases hij : i = j
    · subst hij
      rw [List.getElem?_set_self hilt]
      simp [(List.nodup_cons.mp hnd).1]
    · rw [List.getElem?_set_ne hij, hiff j hj]
      simp only [List.mem_cons]
      constructor
      · rintro (h | h)
        · exact absurd h.symm hij
        · exact h
      · exact fun h => Or.inr h

lemma runBatchAux_inv (rows : List RowInput) (resolver : Nat → BatchOutcome) :
    ∀ (fuel : Nat) (st : BatchState), BatchInv st →
      BatchInv (runBatchAux rows resolver none fuel st) ∧
        (runBatchAux rows resolver none fuel st).results.length = st.results.length := by
  intro fuel
  induction fuel with
  | zero => intro st hinv; exact ⟨hinv, rfl⟩
  | succ n ih =>
      intro st hinv
      rcases hq : st.queue with _ | ⟨i, rest⟩
      · simp only [runBatchAux, hq]
        exact ⟨hinv, by simp⟩
      · simp only [runBatchAux, hq, abortedAt, Bool.false_eq_true, if_false]
        cases hr : resolver st.attempts with
        | res r =>
            have h2 := ih _ (batchInv_set hq hinv (mkTemplateEntry (rows.getD i default) r)
              (st.processed + 1) (st.attempts + 1) st.pauses st.abortedFlag)
            exact ⟨h2.1, by simp only [List.length_set] at h2; exact h2.2⟩
        | timeout =>
            have h2 := ih _ (batchInv_set hq hinv
              (mkTemplateEntry (rows.getD i default) ⟨"DIR_NO_ENCONTRADA", none, ""⟩)
              (st.processed + 1) (st.attempts + 1) st.pauses st.abortedFlag)
            exact ⟨h2.1, by simp only [List.length_set] at h2; exact h2.2⟩
        | quotaError =>
            have hinv2 : BatchInv ⟨i :: rest, st.results, st.processed, st.attempts + 1,
                quotaPauseMs :: st.pauses, st.abortedFlag⟩ := by
              obtain ⟨hnd, hlt, hiff⟩ := hinv
              rw [hq] at hnd hlt hiff
              exact ⟨hnd, hlt, hiff⟩
            exact ih _ hinv2
        | otherError =>
            have h2 := ih _ (batchInv_set hq hinv
              ⟨pad5 (rows.getD i default).dane, (rows.getD i default).city,
                (rows.getD i default).department, (rows.getD i default).address,
                "ERROR_PROCESO", none, ""⟩
              (st.processed + 1) (st.attempts + 1) st.pauses st.abortedFlag)
            exact ⟨h2.1, by simp only [List.length_set] at h2; exact h2.2⟩

lemma length_filterMap_id {α : Type} {l : List (Option α)} (h : ∀ x ∈ l, x.isSome) :
    (l.filterMap id).length = l.length := by
  induction l with
  | nil => rfl
  | cons x xs ih =>
      cases x with
      | none => simpa using h none (by simp)
      | some a => simp [ih fun y hy => h y (by simp [hy])]

/-- C1 (amended): whenever the batch runs to completion (the work queue
    drains without cancellation) the output contains exactly one result
    per input record, whatever the per-record outcomes — including
    universal provider failure, per-record timeouts and quota re-queues;
    under cancellation the output instead holds exactly the records
    processed before the abort (see the counterexample). -/
theorem processTemplateBatch_complete_length (rows : List RowInput)
    (resolver : Nat → BatchOutcome) (fuel : Nat)
    (hdone : (runBatchAux rows resolver none fuel (initBatchState rows.length)).queue = []) :
    (processTemplateBatch rows resolver none fuel).length = rows.length := by
  obtain ⟨⟨hnd, hlt, hiff⟩, hlen⟩ :=
    runBatchAux_inv rows resolver fuel (initBatchState rows.length) (batchInv_init rows.length)
  have hlen2 : (runBatchAux rows resolver none fuel (initBatchState rows.length)).results.length =
      rows.length := by
    simpa [initBatchState] using hlen
  have hall : ∀ x ∈ (runBatchAux rows resolver none fuel (initBatchState rows.length)).results,
      x.isSome := by
    intro x hx
    obtain ⟨j, hj⟩ := List.getElem?_of_mem hx
    cases x with
    | some a => rfl
    | none =>
        have hjlt : j < (runBatchAux rows resolver none fuel
            (initBatchState rows.length)).results.length := by
          by_contra hge
          rw [List.getElem?_eq_none (by omega)] at hj
          exact Option.noConfusion hj
        have hmem := (hiff j hjlt).mp hj
        rw [hdone] at hmem
        simp at hmem
  unfold processTemplateBatch
  rw [length_filterMap_id hall, hlen2]
/-- C2: quota exhaustion never degrades the record to a sentinel: (a) a
    QUOTA_EXCEEDED rejection of the geocoder propagates out of
    resolveSingleAddress unabsorbed (it is never converted into
    ERROR_GEOCODIFICACION), and (b) the batch processor reacts to it by
    putting the record's index back at the front of the queue, leaving its
    result slot untouched, recording the fixed 30000 ms pause, and
    continuing — so the record is retried. -/
theorem quota_exhaustion_requeues_and_pauses :
    (∀ (deps : ResolveDeps) (row : RowInput) (db : List PostalZone)
        (zbm : String → List PostalZone),
      row.city ≠ "" → row.address ≠ "" → row.dane = "" →
      zbm (normalizeCityKey (trimStr (globalReplace parensMatcher row.city))) ≠ [] →
      deps.geocode 0 = GeoCallResult.quotaError →
      resolveSingleAddress deps row db (some zbm) = Except.error GeoErr.quota) ∧
    (∀ (rows : List RowInput) (resolver : Nat → BatchOutcome) (abortAfter : Option Nat)
        (fuel : Nat) (st : BatchState) (i : Nat) (rest : List Nat),
      st.queue = i :: rest → abortedAt abortAfter st.processed = false →
      resolver st.attempts = BatchOutcome.quotaError →
      runBatchAux rows resolver abortAfter (fuel + 1) st =
        runBatchAux rows resolver abortAfter fuel
          ⟨i :: rest, st.results, st.processed, st.attempts + 1,
            quotaPauseMs :: st.pauses, st.abortedFlag⟩) := by
  constructor
  · intro deps row db zbm hc ha hd hz hg
    rw [resolveSingleAddress.eq_def]
    dsimp only
    rw [if_neg (by simp [hc])]
    have hname : zonesByNameStrategy zbm db
        (normalizeCityKey (trimStr (globalReplace parensMatcher row.city))) =
        zbm (normalizeCityKey (trimStr (globalReplace parensMatcher row.city))) := by
      rw [zonesByNameStrategy.eq_def]
      dsimp only
      rw [if_pos hz]
    have hz2 : candidateZones deps zbm db
        (normalizeCityKey (trimStr (globalReplace parensMatcher row.city))) row.dane
        row.department = zbm (normalizeCityKey (trimStr (globalReplace parensMatcher row.city))) := by
      rw [candidateZones.eq_def]
      dsimp only
      rw [hname, if_neg (by simp [hz])]
      simp [hz]
    rw [hz2]
    rw [if_neg (by simp [hd])]
    dsimp only
    rw [if_neg (by simp [hz]), if_pos ⟨ha, hz⟩]
    rw [geocodeBlock.eq_def, hg]
  · intro rows resolver abortAfter fuel st i rest hq hab hr
    obtain ⟨q, res, p, a, pa, ab⟩ := st
    simp only at hq hab hr
    subst hq
    simp only [runBatchAux, hab, Bool.false_eq_true, if_false, hr]

/- Sample zone for the witnesses: a square outer ring with a hole,
   bbox [0,0,4,4]. -/
def sampleZone : PostalZone :=
  { id := "feat-0"
    codigo_municipio := "76001"
    nombre_municipio := "Cali"
    nombre_localidad := ""
    codigo_departamento := "76"
    nombre_departamento := "Valle del Cauca"
    codigo_postal := "760212"
    geometry := Geometry.polygon [[(0, 0), (4, 0), (4, 4), (0, 4)], [(1, 1), (3, 1), (3, 3), (1, 3)]]
    bbox := (0, 0, 4, 4)
    centerLat := some 2
    centerLon := some 2 }

/- Dependencies whose geocoder always reports quota exhaustion. -/
def sampleQuotaDeps : ResolveDeps :=
  { muniIndexByDane := fun _ => none
    muniNameMap := fun _ => none
    zonesIndexReady := false
    zonesByDane := fun _ => []
    geocode := fun _ => GeoCallResult.quotaError
    reverseLocalidad := fun _ => none }

/-- C2 (witness): the quota theorem applied to a concrete record with one
    candidate zone and to a concrete one-element batch state. -/
theorem quota_exhaustion_requeues_and_pauses_witness :
    resolveSingleAddress sampleQuotaDeps ⟨"", "Cali", "", "c 1 2", ""⟩ []
        (some fun _ => [sampleZone]) = Except.error GeoErr.quota ∧
    runBatchAux [] (fun _ => BatchOutcome.quotaError) none 1 ⟨[0], [none], 0, 0, [], false⟩ =
      runBatchAux [] (fun _ => BatchOutcome.quotaError) none 0
        ⟨[0], [none], 0, 0 + 1, quotaPauseMs :: [], false⟩ :=
  ⟨quota_exhaustion_requeues_and_pauses.1 sampleQuotaDeps ⟨"", "Cali", "", "c 1 2", ""⟩ []
      (fun _ => [sampleZone]) (by decide) (by decide) rfl (by simp) rfl,
   quota_exhaustion_requeues_and_pauses.2 [] (fun _ => BatchOutcome.quotaError) none 0
      ⟨[0], [none], 0, 0, [], false⟩ 0 [] rfl rfl rfl⟩

lemma zonesByNameStrategy_subset (db : List PostalZone) (normCity : String) :
    ∀ z ∈ zonesByNameStrategy
        (fun k => db.filter (fun z2 => normalizeCityKey z2.nombre_municipio = k)) db normCity,
      z ∈ db := by
  intro z hz
  rw [zonesByNameStrategy.eq_def] at hz
  dsimp only at hz
  split at hz
  · exact List.mem_of_mem_filter hz
  · split at hz
    · exact List.mem_of_mem_filter hz
    · exact List.mem_of_mem_filter hz

lemma zonesByDaneStrategy_subset (deps : ResolveDeps) (db : List PostalZone)
    (dane : String) (hready : deps.zonesIndexReady = false) :
    ∀ z ∈ zonesByDaneStrategy deps db dane, z ∈ db := by
  intro z hz
  rw [zonesByDaneStrategy.eq_def] at hz
  dsimp only at hz
  rw [hready] at hz
  simp only [Bool.false_eq_true, if_false] at hz
  repeat' split at hz
  all_goals
    first
      | exact List.mem_of_mem_filter hz
      | exact absurd hz (List.not_mem_nil z)

lemma zonesByDeptStrategy_subset (db : List PostalZone) (normCity department : String) :
    ∀ z ∈ zonesByDeptStrategy db normCity department, z ∈ db := by
  intro z hz
  rw [zonesByDeptStrategy.eq_def] at hz
  dsimp only at hz
  repeat' split at hz
  all_goals
    first
      | exact List.mem_of_mem_filter hz
      | exact absurd hz (List.not_mem_nil z)

lemma candidateZones_subset (deps : ResolveDeps) (db : List PostalZone)
    (normCity dane department : String) (hready : deps.zonesIndexReady = false) :
    ∀ z ∈ candidateZones deps
        (fun k => db.filter (fun z2 => normalizeCityKey z2.nombre_municipio = k)) db
        normCity dane department, z ∈ db := by
  intro z hz
  rw [candidateZones.eq_def] at hz
  dsimp only at hz
  split at hz
  · split at hz
    · exact zonesByDeptStrategy_subset db normCity department z hz
    · exact zonesByDaneStrategy_subset deps db dane hready z hz
  · split at hz
    · exact zonesByDeptStrategy_subset db normCity department z hz
    · exact zonesByNameStrategy_subset db normCity z hz

/-- C4: the direct DANE shortcut: whenever the municipal index has an entry
    with a preferred postal code for the record's admin code, the
    orchestrator returns immediately with that entry's preferred postal
    code — refined to the urban or rural entry by the rural-keyword
    heuristic exactly when the entry lists more than one code — without
    consulting the geocoder or the reverse geocoder at all (the result is
    unchanged under any replacement of those oracles), and the coordinate,
    when present, is the center of a database zone carrying the selected
    postal code. -/
theorem resolveSingleAddress_dane_direct (deps : ResolveDeps) (row : RowInput)
    (db : List PostalZone) (mi : MunicipalIndexEntry)
    (g2 : Nat → GeoCallResult) (r2 : Nat → Option String)
    (hready : deps.zonesIndexReady = false)
    (hne : ¬ (row.city = "" ∧ row.address = ""))
    (hd1 : row.dane ≠ "") (hd2 : row.dane ≠ "00000")
    (hmi : deps.muniIndexByDane (pad5 row.dane) = some mi)
    (hpref : mi.preferred_postal ≠ "") :
    ∃ res : ResolveResult,
      resolveSingleAddress deps row db none = Except.ok res ∧
      resolveSingleAddress { deps with geocode := g2, reverseLocalidad := r2 } row db none =
        Except.ok res ∧
      res.postalCode = daneSelectedCP mi row.address ∧
      (res.coords = none ∨ ∃ z ∈ db, z.codigo_postal = daneSelectedCP mi row.address ∧
        res.coords = some (zoneCenterPair z)) := by
  rcases hfind : ((candidateZones deps (fun k => db.filter fun z2 =>
        normalizeCityKey z2.nombre_municipio = k) db
        (normalizeCityKey (trimStr (globalReplace parensMatcher row.city))) row.dane
        row.department).find? (fun z => z.codigo_postal = daneSelectedCP mi row.address)).orElse
      (fun _ => db.find? (fun z => z.codigo_postal = daneSelectedCP mi row.address))
    with _ | zone
  · refine ⟨⟨daneSelectedCP mi row.address, none, ""⟩, ?_, ?_, rfl, Or.inl rfl⟩
    · rw [resolveSingleAddress.eq_def]
      dsimp only
      rw [if_neg hne, if_pos ⟨hd1, hd2⟩, hmi]
      dsimp only
      rw [if_pos hpref, hfind]
    · rw [resolveSingleAddress.eq_def]
      dsimp only
      rw [if_neg hne, if_pos ⟨hd1, hd2⟩,
        show ({ deps with geocode := g2, reverseLocalidad := r2 } :
          ResolveDeps).muniIndexByDane = deps.muniIndexByDane from rfl, hmi]
      dsimp only
      rw [if_pos hpref,
        show candidateZones { deps with geocode := g2, reverseLocalidad := r2 }
            (fun k => db.filter fun z2 => normalizeCityKey z2.nombre_municipio = k) db
            (normalizeCityKey (trimStr (globalReplace parensMatcher row.city))) row.dane
            row.department =
          candidateZones deps (fun k => db.filter fun z2 =>
            normalizeCityKey z2.nombre_municipio = k) db
            (normalizeCityKey (trimStr (globalReplace parensMatcher row.city))) row.dane
            row.department from rfl, hfind]
  · have hzone : zone ∈ db ∧ zone.codigo_postal = daneSelectedCP mi row.address := by
      rcases ha : (candidateZones deps (fun k => db.filter fun z2 =>
            normalizeCityKey z2.nombre_municipio = k) db
            (normalizeCityKey (trimStr (globalReplace parensMatcher row.city))) row.dane
            row.department).find? (fun z => z.codigo_postal = daneSelectedCP mi row.address)
        with _ | z1
      · rw [ha] at hfind
        simp only [Option.orElse] at hfind
        have hp := List.find?_some hfind
        exact ⟨List.mem_of_find?_eq_some hfind, of_decide_eq_true hp⟩
      · rw [ha] at hfind
        simp only [Option.orElse] at hfind
        obtain rfl : z1 = zone := by simpa using hfind
        have hp := List.find?_some ha
        exact ⟨candidateZones_subset deps db _ row.dane row.department hready z1
            (List.mem_of_find?_eq_some ha), of_decide_eq_true hp⟩
    refine ⟨⟨daneSelectedCP mi row.address, some (zoneCenterPair zone),
        if zone.nombre_localidad ≠ "" then zone.nombre_localidad else mi.nombre_municipio⟩,
      ?_, ?_, rfl, Or.inr ⟨zone, hzone.1, hzone.2, rfl⟩⟩
    · rw [resolveSingleAddress.eq_def]
      dsimp only
      rw [if_neg hne, if_pos ⟨hd1, hd2⟩, hmi]
      dsimp only
      rw [if_pos hpref, hfind]
    · rw [resolveSingleAddress.eq_def]
      dsimp only
      rw [if_neg hne, if_pos ⟨hd1, hd2⟩,
        show ({ deps with geocode := g2, reverseLocalidad := r2 } :
          ResolveDeps).muniIndexByDane = deps.muniIndexByDane from rfl, hmi]
      dsimp only
      rw [if_pos hpref,
        show candidateZones { deps with geocode := g2, reverseLocalidad := r2 }
            (fun k => db.filter fun z2 => normalizeCityKey z2.nombre_municipio = k) db
            (normalizeCityKey (trimStr (globalReplace parensMatcher row.city))) row.dane
            row.department =
          candidateZones deps (fun k => db.filter fun z2 =>
            normalizeCityKey z2.nombre_municipio = k) db
            (normalizeCityKey (trimStr (globalReplace parensMatcher row.city))) row.dane
            row.department from rfl, hfind]

/- Concrete municipal-index entry and dependencies for the witnesses. -/
def sampleMuniEntry : MunicipalIndexEntry :=
  ⟨"76001", "Cali", "Valle del Cauca",
    [⟨"760010", "urbana"⟩, ⟨"760017", "rural"⟩], "760010"⟩

def sampleDaneDeps : ResolveDeps :=
  { muniIndexByDane := fun k => if k = "76001" then some sampleMuniEntry else none
    muniNameMap := fun _ => none
    zonesIndexReady := false
    zonesByDane := fun _ => []
    geocode := fun _ => GeoCallResult.quotaError
    reverseLocalidad := fun _ => none }

def sampleDaneDeps2 : ResolveDeps :=
  { sampleDaneDeps with
    geocode := fun _ => GeoCallResult.loc none
    reverseLocalidad := fun _ => none }

/-- C4 (witness): the DANE-shortcut theorem applied to a concrete record
    whose address carries a rural marker, an index entry with an urban and
    a rural code, and a geocoder that would fail loudly if consulted. -/
theorem resolveSingleAddress_dane_direct_witness :
    ∃ res : ResolveResult,
      resolveSingleAddress sampleDaneDeps ⟨"76001", "Cali", "", "vereda la paz", ""⟩ [] none =
        Except.ok res ∧
      resolveSingleAddress sampleDaneDeps2 ⟨"76001", "Cali", "", "vereda la paz", ""⟩ [] none =
        Except.ok res ∧
      res.postalCode = daneSelectedCP sampleMuniEntry "vereda la paz" ∧
      (res.coords = none ∨ ∃ z ∈ ([] : List PostalZone),
        z.codigo_postal = daneSelectedCP sampleMuniEntry "vereda la paz" ∧
        res.coords = some (zoneCenterPair z)) :=
  resolveSingleAddress_dane_direct sampleDaneDeps ⟨"76001", "Cali", "", "vereda la paz", ""⟩ []
    sampleMuniEntry (fun _ => GeoCallResult.loc none) (fun _ => none) rfl
    (by decide) (by decide) (by decide) (by decide) (by decide)

/- Concrete two-record batch inputs for the batch theorems. -/
def sampleRows : List RowInput :=
  [⟨"76001", "Cali", "Valle", "c 1", ""⟩, ⟨"05001", "Medellin", "Antioquia", "c 2", ""⟩]

def sampleQuotaThenOk : Nat → BatchOutcome := fun t =>
  if t = 0 then BatchOutcome.quotaError else BatchOutcome.res ⟨"760010", none, ""⟩

/-- C1 (witness): the completion-length theorem on a concrete two-record
    batch whose first attempt hits quota exhaustion and is re-queued. -/
theorem processTemplateBatch_complete_length_witness :
    (runBatchAux sampleRows sampleQuotaThenOk none 5 (initBatchState sampleRows.length)).queue =
      [] ∧
    (processTemplateBatch sampleRows sampleQuotaThenOk none 5).length = sampleRows.length :=
  ⟨by decide, processTemplateBatch_complete_length sampleRows sampleQuotaThenOk 5 (by decide)⟩

/-- C1 (counterexample): the claim states the output length equals the
    input length even when the run is cancelled via the abort signal; in
    the code the abort handler resolves only the already-defined entries,
    so cancelling a two-record batch after one processed record returns a
    single result. -/
theorem processTemplateBatch_abort_shortens :
    (processTemplateBatch sampleRows (fun _ => BatchOutcome.res ⟨"760010", none, ""⟩)
        (some 1) 10).length = 1 ∧ sampleRows.length = 2 := by
  refine ⟨by decide, by decide⟩

/-! Theorems for the claims. -/

/-- C3 (counterexample): the claim states that the per-provider timeout of
    the Nominatim request is strictly shorter than the per-record timeout
    of the batch race; in the code the provider timeout is 10000 ms and the
    per-record timeout is 8000 ms, so the stated inequality fails. -/
theorem providerTimeout_not_lt_rowTimeout : ¬ (nominatimTimeoutMs < rowTimeoutMs) := by
  decide

/-- C3 (amended): the inequality between the two timeouts is reversed: the
    per-record 8000 ms race is strictly shorter than the 10000 ms timeout
    carried by each Nominatim provider call. -/
theorem rowTimeout_lt_providerTimeout : rowTimeoutMs < nominatimTimeoutMs := by
  decide

/-- C7 (counterexample): the claim states that normalizeAddressForGeocoding
    truncates the entire remainder of the string from the first stop-word
    onward; on "Calle 10 apto 302" the house number "302", which occurs
    only after the stop-word "apto", survives in the output, so the claim
    fails. -/
theorem normalizeAddress_keeps_text_after_stopword :
    containsSub (normalizeAddressForGeocoding "Calle 10 apto 302") "302" = true := by
  decide

/-- C7 (amended): normalizeAddressForGeocoding removes each stop-word
    occurrence itself and keeps the remainder (here the kept house number
    is then joined by the hash heuristic); the truncation-from-keyword
    behaviour lives in the companion stripExtraneousAddressParts. -/
theorem stopword_removed_remainder_kept :
    normalizeAddressForGeocoding "Calle 10 apto 302" = "Calle 10 # 302" ∧
    stripExtraneousAddressParts "Calle 10 apto 302" "Cali" = "Calle 10" := by
  constructor
  · decide
  · decide

/-- C8 (counterexample): the claim states the normalizer is idempotent on
    every address string; on "mz Calle 1 2" the first pass deletes the
    leading stop-word leaving a leading space that blocks the anchored
    hash-insertion heuristic, and the second pass then inserts " # ", so
    normalize(normalize(x)) differs from normalize(x). -/
theorem normalizeAddress_not_idempotent :
    normalizeAddressForGeocoding (normalizeAddressForGeocoding "mz Calle 1 2") ≠
      normalizeAddressForGeocoding "mz Calle 1 2" := by
  decide

/-- C8 (amended): the normalizer is idempotent on representative address
    strings (the scenario address of the specification and common
    well-formed forms), though not on every string. -/
theorem normalizeAddress_idempotent_representatives :
    normalizeAddressForGeocoding (normalizeAddressForGeocoding "Calle 59C 2C-76") =
      normalizeAddressForGeocoding "Calle 59C 2C-76" ∧
    normalizeAddressForGeocoding (normalizeAddressForGeocoding "Carrera 7 # 45-10") =
      normalizeAddressForGeocoding "Carrera 7 # 45-10" ∧
    normalizeAddressForGeocoding (normalizeAddressForGeocoding "Calle 12 No. 45 67") =
      normalizeAddressForGeocoding "Calle 12 No. 45 67" := by
  refine ⟨by decide, by decide, by decide⟩

/-- C6: containment testing returns false whenever the point lies outside
    the zone's bounding box, for every geometry (so no ring is evaluated);
    inside the box a Polygon matches exactly when even-odd ray casting puts
    the point in its outer ring, and a MultiPolygon matches exactly when
    some member polygon's outer ring contains the point — inner rings
    (holes) never enter the test. -/
theorem isPointInFeature_spec (zone : PostalZone) (lon lat : ℚ) :
    (bboxOutside zone lon lat = true → isPointInFeature lon lat zone = false) ∧
    (bboxOutside zone lon lat = false → ∀ rings, zone.geometry = Geometry.polygon rings →
      isPointInFeature lon lat zone = pointInPolygon (lon, lat) (rings.headD [])) ∧
    (bboxOutside zone lon lat = false → ∀ polys, zone.geometry = Geometry.multiPolygon polys →
      (isPointInFeature lon lat zone = true ↔
        ∃ poly ∈ polys, pointInPolygon (lon, lat) (poly.headD []) = true)) := by
  refine ⟨?_, ?_, ?_⟩
  · intro h
    simp [isPointInFeature, h]
  · intro h rings hg
    simp [isPointInFeature, h, hg]
  · intro h polys hg
    simp [isPointInFeature, h, hg, List.any_eq_true]

/-- C6 (witness): the specification theorem applied to the sample zone at a
    point outside the bbox (rejected without geometry) and at a point
    inside the outer ring (accepted although it lies inside the hole,
    since holes are not subtracted). -/
theorem isPointInFeature_spec_witness :
    (bboxOutside sampleZone 9 9 = true ∧ isPointInFeature 9 9 sampleZone = false) ∧
    (bboxOutside sampleZone 2 2 = false ∧
      isPointInFeature 2 2 sampleZone =
        pointInPolygon (2, 2) ([[(0, 0), (4, 0), (4, 4), (0, 4)],
          [(1, 1), (3, 1), (3, 3), (1, 3)]].headD []) ∧
      isPointInFeature 2 2 sampleZone = true) := by
  have hout : bboxOutside sampleZone 9 9 = true := by
    norm_num [bboxOutside, sampleZone]
  have hin : bboxOutside sampleZone 2 2 = false := by
    norm_num [bboxOutside, sampleZone]
  have hval : isPointInFeature 2 2 sampleZone = true := by
    norm_num [isPointInFeature, bboxOutside, sampleZone, pointInPolygon, pipStep,
      List.range_succ, List.getD]
  exact ⟨⟨hout, (isPointInFeature_spec sampleZone 9 9).1 hout⟩,
    ⟨hin, (isPointInFeature_spec sampleZone 2 2).2.1 hin _ rfl, hval⟩⟩

end Despliegue
